import Mathlib

/-
Verification development for the rumydata tabular-data validation package.

The definitions below are a shallow embedding of the validation core:
  * rumydata/rules/cell.py    (cell rules: NotNull, MaxChar, NoLeadingZero, ...)
  * rumydata/rules/column.py  (column rules: Unique)
  * rumydata/rules/header.py  (header rules: ColumnOrder, NoExtra, NoDuplicate, NoMissing)
  * rumydata/rules/row.py     (row rules: RowLengthLTE, RowLengthGTE)
  * rumydata/_base.py         (_BaseRule / _BaseSubject check algorithm)
  * rumydata/field.py         (Field, Ignore, Integer constructors)
  * rumydata/table.py         (Layout._check and _BaseFile._check streaming loop)

Python machine-level conventions used throughout:
  * Python strings are Lean Strings; len(s) is String.length (count of code
    points).  String comparison (x > y) is lexicographic on code points, which
    is Lean's String order.  Character classes (str.strip whitespace, regex
    \d, str.lower) are modelled on their ASCII fragment.
  * Python exceptions that escape a rule's prepare/evaluate are modelled with
    Except carrying the exception class name and detail string.
  * dict objects are association lists in insertion order (keys unique).

The embedded configuration fragment fixes empty_cols_ok = False (the default):
the empty-columns accommodation in _BaseFile._check mutates the layout using
uuid4-generated fresh names and stateful row-length rules, which is outside
this embedding.  No claim below involves empty_cols_ok.
-/

namespace Rumydata

/-- Python exception escaping a rule's prepare/evaluate: class name plus the
str(e) detail (the detail is only ever shown in debug mode). -/
structure PyExc where
  name : String
  detail : String
deriving Repr

/-- Python str.strip(): remove leading and trailing whitespace (ASCII fragment). -/
def pyStrip (s : String) : String :=
  String.mk (((s.toList.dropWhile Char.isWhitespace).reverse.dropWhile Char.isWhitespace).reverse)

/-- Helper for Python str.startswith: the needle list is an initial segment of the hay list. -/
def listStarts : List Char → List Char → Bool
  | [], _ => true
  | _ :: _, [] => false
  | a :: as, b :: bs => a == b && listStarts as bs

/-- Python y.startswith(z). -/
def pyStartsWith (y z : String) : Bool :=
  listStarts z.toList y.toList

/-- Helper for Python substring membership on char lists. -/
def listSub (needle : List Char) : List Char → Bool
  | [] => listStarts needle []
  | b :: bs => listStarts needle (b :: bs) || listSub needle bs

/-- Python `z in y` for strings: z occurs as a contiguous substring of y. -/
def pyIn (z y : String) : Bool :=
  listSub z.toList y.toList

/-- Python str.lower() (ASCII fragment, via Char.toLower). -/
def pyLower (s : String) : String :=
  String.mk (s.toList.map Char.toLower)

/-- Characters of s that match the regex class \d (re.sub(r'[^\d]', '', s)). -/
def pyDigits (s : String) : List Char :=
  s.toList.filter Char.isDigit

mutual

/-- CPython int(str) digit grammar: nonempty digit run, underscores allowed only
between digits.  This parses the part after the optional sign. -/
def pyIntDigits : List Char → Bool
  | [] => false
  | c :: rest => c.isDigit && pyIntTail rest

/-- Continuation of pyIntDigits after at least one digit has been read: an
underscore must be followed by another digit run. -/
def pyIntTail : List Char → Bool
  | [] => true
  | c :: rest => if c == '_' then pyIntDigits rest else c.isDigit && pyIntTail rest

end

/-- Whether Python int(x) succeeds on a string: optional surrounding
whitespace, optional single sign, then digits with optional single
underscores between them. -/
def pyIntParses (x : String) : Bool :=
  match ((x.toList.dropWhile Char.isWhitespace).reverse.dropWhile Char.isWhitespace).reverse with
  | [] => false
  | c :: t => if c == '+' || c == '-' then pyIntDigits t else pyIntDigits (c :: t)

/-- Lexicographic comparison of char lists by code point (the comparison
Python performs on strings, and the order underlying Lean's String order). -/
def listLtChars : List Char → List Char → Bool
  | [], [] => false
  | [], _ :: _ => true
  | _ :: _, [] => false
  | a :: as, b :: bs => decide (a.toNat < b.toNat) || (a == b && listLtChars as bs)

/-- Python x > y on strings: lexicographic comparison on code points,
which is Lean's String order with the arguments swapped
(theorem pyStrGT_iff below). -/
def pyStrGT (x y : String) : Bool :=
  listLtChars y.toList x.toList

/-- Python sorted() on a list of naturals (non-decreasing). -/
def pySorted (l : List Nat) : List Nat :=
  List.insertionSort (fun a b => a ≤ b) l

/-- Python len(set(l)) for a list with decidable equality: count of distinct values. -/
def pySetLen {α : Type} [DecidableEq α] (l : List α) : Nat :=
  l.dedup.length

/-- First-match lookup in an association list (Python dict subscript d[k]). -/
def pyLookup {α : Type} (k : String) : List (String × α) → Option α
  | [] => none
  | kv :: rest => if kv.1 == k then some kv.2 else pyLookup k rest

/-- Python repr of a list of strings, as interpolated by f-strings such as
Choice._explain (escape-free fragment). -/
def pyListRepr (l : List String) : String :=
  "[" ++ String.intercalate ", " (l.map (fun s => "'" ++ s ++ "'")) ++ "]"

/-- Failure kind: identifies the rule class whose rule_exception() produced a
failure node (the spec's closed FailureKind taxonomy, one tag per rule class in
the embedded fragment, plus the PreProcessing / MaxExceeded / Custom /
file-rule tags). -/
inductive FailKind where
  | notNull | exactChar | minChar | maxChar | asciiChar | choice
  | minDigit | maxDigit | onlyNumbers | noLeadingZero | canBeInteger
  | numericDecimals | lengthGT | lengthGTE | lengthET | lengthLTE | lengthLT
  | greaterThanColumn
  | rowLengthLTE | rowLengthGTE
  | columnOrder | noExtra | noDuplicate | noMissing
  | unique
  | preProcessing | maxExceeded | custom | fileRule
deriving DecidableEq, Repr

/-- Error tree node (rumydata/exception.py).  The snapshot's exception.py is an
older module revision whose constructors disagree with the current callers in
table.py and field.py (e.g. it lacks the _errors attribute those callers use),
so the node shapes here follow the spec's error-tree data model — File, Row,
Cell, Column nodes carrying coordinates and children — with exactly the
constructor arguments the current callers pass.  Leaf nodes carry the failure
kind and the sanitized message recorded by _BaseSubject._check. -/
inductive Err where
  | fail (kind : FailKind) (msg : String)
  | cellE (rix : Option Int) (cix : Int) (name : Option String) (children : List Err)
  | rowE (rix : Int) (children : List Err)
  | colE (cix : Int) (name : Option String) (children : List Err)
  | fileE (name : String) (children : List Err)

/-- The failure kind of a leaf error node (none for the structured nodes). -/
def Err.kindOf : Err → Option FailKind
  | .fail k _ => some k
  | _ => none

/-- Cell rules (rumydata/rules/cell.py).  The embedded fragment covers the
rules whose semantics are string/arithmetic-level; the CanBeFloat, Numeric*
and Date* comparison rules (built on Python float and datetime) are outside
the fragment. -/
inductive CellRule where
  | notNull
  | exactChar (n : Nat)
  | minChar (n : Nat)
  | maxChar (n : Nat)
  | asciiChar
  | choice (choices : List String) (caseInsensitive : Bool)
  | minDigit (n : Nat)
  | maxDigit (n : Nat)
  | onlyNumbers
  | noLeadingZero
  | canBeInteger
  | numericDecimals (n : Nat)
  | lengthGT (n : Nat)
  | lengthGTE (n : Nat)
  | lengthET (n : Nat)
  | lengthLTE (n : Nat)
  | lengthLT (n : Nat)
  | greaterThanColumn (compareTo : String)
deriving DecidableEq, Repr

/-- The failure kind a cell rule's rule_exception() carries. -/
def CellRule.kind : CellRule → FailKind
  | .notNull => .notNull
  | .exactChar _ => .exactChar
  | .minChar _ => .minChar
  | .maxChar _ => .maxChar
  | .asciiChar => .asciiChar
  | .choice _ _ => .choice
  | .minDigit _ => .minDigit
  | .maxDigit _ => .maxDigit
  | .onlyNumbers => .onlyNumbers
  | .noLeadingZero => .noLeadingZero
  | .canBeInteger => .canBeInteger
  | .numericDecimals _ => .numericDecimals
  | .lengthGT _ => .lengthGT
  | .lengthGTE _ => .lengthGTE
  | .lengthET _ => .lengthET
  | .lengthLTE _ => .lengthLTE
  | .lengthLT _ => .lengthLT
  | .greaterThanColumn _ => .greaterThanColumn

/-- The _explain() string of each cell rule (verbatim from rules/cell.py). -/
def CellRule.explain : CellRule → String
  | .notNull => "cannot be empty/blank"
  | .exactChar n => "must be exactly " ++ toString n ++ " characters"
  | .minChar n => "must be at least " ++ toString n ++ " characters"
  | .maxChar n => "must be no more than " ++ toString n ++ " characters"
  | .asciiChar => "must have only ASCII characters"
  | .choice cs ci =>
      "must be one of " ++ pyListRepr cs ++
        (if ci then " (case insensitive)" else " (case sensitive)")
  | .minDigit n => "must have at least " ++ toString n ++ " digit characters"
  | .maxDigit n => "must have no more than " ++ toString n ++ " digit characters"
  | .onlyNumbers => "must only contain characters 0-9"
  | .noLeadingZero => "cannot have a leading zero digit"
  | .canBeInteger => "can be coerced into an integer value"
  | .numericDecimals n => "cannot have more than " ++ toString n ++ " digits after the decimal point"
  | .lengthGT n => "greater than " ++ toString n
  | .lengthGTE n => "greater than or equal to " ++ toString n
  | .lengthET n => "equal to " ++ toString n
  | .lengthLTE n => "less than or equal to " ++ toString n
  | .lengthLT n => "less than " ++ toString n
  | .greaterThanColumn c => "must be greater than column '" ++ c ++ "'"

/-- Raw datum passed to a cell check: either a bare string (check_cell API) or
the (value, comparison-dict) tuple that Layout._check builds for data rows. -/
inductive CellInput where
  | raw (s : String)
  | tup (s : String) (comp : List (String × String))

/-- The cell value component of the datum (data[0] if tuple else data). -/
def CellInput.cellVal : CellInput → String
  | .raw s => s
  | .tup s _ => s

/-- Datum after cell Rule._pre_process: the tuple collapses to a plain string
when the comparison dict is empty. -/
inductive CellData where
  | str (s : String)
  | pair (s : String) (comp : List (String × String))

/-- Cell Rule._pre_process (rules/cell.py): optional stripping, then return
(d1, d2) when the comparison dict is non-empty, else just d1.  Wrapped in
Except to mirror the PreProcessingError branch of _BaseSubject._check; for
cell data this processing cannot raise. -/
def preProcessCell (strip : Bool) (input : CellInput) : Except PyExc CellData :=
  match input with
  | .raw s => .ok (.str (if strip then pyStrip s else s))
  | .tup s comp =>
      let d1 := if strip then pyStrip s else s
      let d2 := if strip then comp.map (fun kv => (kv.1, pyStrip kv.2)) else comp
      if d2.isEmpty then .ok (.str d1) else .ok (.pair d1 d2)

/-- Arguments produced by a rule's _prepare, fed to its evaluator. -/
inductive CellArgs where
  | one (x : String)
  | two (x y : String)

/-- The prepared first component (data if str, data[0] if tuple). -/
def CellData.fstVal : CellData → String
  | .str s => s
  | .pair s _ => s

/-- Per-rule _prepare (rules/cell.py).  The base Rule returns (data[0],); the
Choice rule lower-cases the value first when case-insensitive;
ColumnComparisonRule returns (data[0], data[1][compare_to]) and can raise:
KeyError when the comparison dict lacks the column, and — when the datum
collapsed to a plain string — the expression always raises: data[0] or
data[1] raises IndexError when the string is shorter than two characters,
and otherwise data[1] is a one-character string which the subscript
[compare_to] (a string index) makes raise TypeError. -/
def CellRule.prep : CellRule → CellData → Except PyExc CellArgs
  | .choice _ ci, d =>
      .ok (.one (if ci then pyLower d.fstVal else d.fstVal))
  | .greaterThanColumn c, .pair s comp =>
      match pyLookup c comp with
      | some y => .ok (.two s y)
      | none => .error ⟨"KeyError", "'" ++ c ++ "'"⟩
  | .greaterThanColumn _, .str s =>
      match s.toList with
      | _ :: _ :: _ => .error ⟨"TypeError", "string indices must be integers"⟩
      | _ => .error ⟨"IndexError", "string index out of range"⟩
  | _, d => .ok (.one d.fstVal)

/-- NumericDecimals regex -?\d+(\.\d{1,n})? as a full-match test. -/
def numericDecimalsOk (n : Nat) (x : String) : Bool :=
  let l := match x.toList with | '-' :: t => t | t => t
  let intPart := l.takeWhile Char.isDigit
  let rest := l.dropWhile Char.isDigit
  !intPart.isEmpty &&
    (match rest with
     | [] => true
     | '.' :: frac => !frac.isEmpty && frac.all Char.isDigit && frac.length ≤ n
     | _ => false)

/-- NoLeadingZero regex (0|[1-9]\d*) full-matched against the digit characters
of the value: non-empty, and either the single digit 0 or starting 1-9. -/
def noLeadingZeroOk (ds : List Char) : Bool :=
  match ds with
  | [] => false
  | c :: rest => (c == '0' && rest.isEmpty) || (c != '0' && (c :: rest).all Char.isDigit)

/-- Each cell rule's evaluator on its prepared arguments (rules/cell.py).
A shape mismatch between rule and arguments cannot arise from prep, and falls
back to the base class's always-failing evaluator. -/
def CellRule.eval : CellRule → CellArgs → Bool
  | .notNull, .one x => x != ""
  | .exactChar n, .one x => x.length == n
  | .minChar n, .one x => decide (n ≤ x.length)
  | .maxChar n, .one x => decide (x.length ≤ n)
  | .asciiChar, .one x => x.toList.all (fun c => c.toNat < 128)
  | .choice cs ci, .one x => (if ci then cs.map pyLower else cs).contains x
  | .minDigit n, .one x => decide (n ≤ (pyDigits x).length)
  | .maxDigit n, .one x => decide ((pyDigits x).length ≤ n)
  | .onlyNumbers, .one x => !x.isEmpty && x.toList.all Char.isDigit
  | .noLeadingZero, .one x => noLeadingZeroOk (pyDigits x)
  | .canBeInteger, .one x => pyIntParses x
  | .numericDecimals n, .one x => numericDecimalsOk n x
  | .lengthGT n, .one x => decide (n < x.length)
  | .lengthGTE n, .one x => decide (n ≤ x.length)
  | .lengthET n, .one x => x.length == n
  | .lengthLTE n, .one x => decide (x.length ≤ n)
  | .lengthLT n, .one x => decide (x.length < n)
  | .greaterThanColumn _, .two x y => pyStrGT x y
  | _, _ => false

/-- Sanitized message for an internal exception caught while checking a rule
(_BaseSubject._check): the exception's class name and the rule's explanation;
the exception detail is appended only in debug mode. -/
def excWrapMsg (debug : Bool) (pe : PyExc) (explain : String) : String :=
  "raised " ++ pe.name ++ " while checking if value " ++ explain ++
    (if debug then " [DEBUG]: " ++ pe.detail else "")

/-- Message for a pre-processing failure (_BaseSubject._check). -/
def preProcMsg (debug : Bool) (pe : PyExc) : String :=
  "raised " ++ pe.name ++ " while preprocessing data" ++
    (if debug then " [DEBUG]: " ++ pe.detail else "")

/-- One iteration of the rule loop in _BaseSubject._check for a cell rule:
prepare then evaluate; a false evaluation records the rule's sanitized
_exception_msg (its explain string under its own failure kind); an exception
during prepare/evaluate records the wrapped sanitized message under the same
kind.  Returns none when the rule passes. -/
def checkOneCell (debug : Bool) (r : CellRule) (d : CellData) : Option Err :=
  match r.prep d with
  | .error pe => some (.fail r.kind (excWrapMsg debug pe r.explain))
  | .ok args => if r.eval args then none else some (.fail r.kind r.explain)

/-- The ordered failure list from _BaseSubject._check restricted to cell
rules: pre-processing first (its failure short-circuits), then each rule in
order. -/
def cellCheckFailures (debug strip : Bool) (rs : List CellRule) (input : CellInput) :
    List Err :=
  match preProcessCell strip input with
  | .error pe => [.fail .preProcessing (preProcMsg debug pe)]
  | .ok d => rs.filterMap (fun r => checkOneCell debug r d)

/-- Column rules (rumydata/rules/column.py): Unique is the only concrete one. -/
inductive ColRule where
  | unique
deriving DecidableEq, Repr

/-- One iteration of the rule loop for a column rule: Unique prepares by
discarding blank values, then requires the remaining values to have as many
distinct elements as entries (len(x) == len(set(x))); its failure message is
its explain string.  Column rule preparation and evaluation cannot raise. -/
def checkOneCol (r : ColRule) (vals : List String) : Option Err :=
  match r with
  | .unique =>
      let x := vals.filter (fun v => !(v == ""))
      if x.length == pySetLen x then none else some (.fail .unique "values must be unique")

/-- A rule held by a Field: the Python rules list mixes cell-scoped and
column-scoped rule objects; _BaseSubject._check filters them with an
issubclass test against the requested rule type. -/
inductive FieldRule where
  | cell (r : CellRule)
  | col (r : ColRule)
deriving DecidableEq, Repr

/-- The ignore_exceptions machinery stores a value or list of values on the
field as _ignore_if.  The Field class of the snapshot never initialises the
attribute; the table.py caller treats a missing/None value as matching
nothing, modelled by the noneI constructor. -/
inductive IgnoreIf where
  | noneI
  | one (v : String)
  | many (vs : List String)
deriving DecidableEq, Repr

/-- Field (rumydata/field.py): a cell-level subject with its rule list,
nullability, strip pre-processing flag and the subject-level all_errors and
custom_error_msg options; isIgnore marks the Ignore subclass, whose _check
override reports nothing. -/
structure Field where
  nullable : Bool := false
  rules : List FieldRule := []
  strip : Bool := false
  allErrors : Bool := true
  customErrorMsg : Option String := none
  isIgnore : Bool := false
  ignoreIf : IgnoreIf := .noneI

/-- Field.__init__: the user rules are kept in order and a NotNull cell rule
is appended when the field is not nullable (subclass constructors append
their type rules after this). -/
def Field.base (nullable : Bool := false) (rules : List FieldRule := [])
    (strip : Bool := false) (allErrors : Bool := true)
    (customErrorMsg : Option String := none) (ignoreIf : IgnoreIf := .noneI) : Field :=
  { nullable := nullable, strip := strip, allErrors := allErrors,
    customErrorMsg := customErrorMsg, ignoreIf := ignoreIf,
    rules := rules ++ (if nullable then [] else [.cell .notNull]) }

/-- The Ignore field subclass: nullable, no rules, and a _check override that
has no effect. -/
def Field.ignore : Field :=
  { nullable := true, rules := [], isIgnore := true }

/-- Integer field constructor (field.py): base construction followed by
CanBeInteger, NoLeadingZero and MaxDigit(max_length) rules, plus
MinDigit(min_length) when min_length is truthy (Python: 0 and None are
falsy). -/
def Field.integer (maxLength : Nat) (minLength : Option Nat := none)
    (nullable : Bool := false) (rules : List FieldRule := [])
    (strip : Bool := false) (allErrors : Bool := true)
    (customErrorMsg : Option String := none) : Field :=
  let f := Field.base nullable rules strip allErrors customErrorMsg
  { f with rules := f.rules ++
      [.cell .canBeInteger, .cell .noLeadingZero, .cell (.maxDigit maxLength)] ++
      (match minLength with
       | some n => if n == 0 then [] else [.cell (.minDigit n)]
       | none => []) }

/-- The cell-scoped subset of a field's rules, in order. -/
def Field.cellRules (f : Field) : List CellRule :=
  f.rules.filterMap (fun r => match r with | .cell c => some c | .col _ => none)

/-- The column-scoped subset of a field's rules, in order. -/
def Field.colRules (f : Field) : List ColRule :=
  f.rules.filterMap (fun r => match r with | .col c => some c | .cell _ => none)

/-- Field._has_rule_type(cr.Rule): whether any rule is column-scoped. -/
def Field.hasColRule (f : Field) : Bool :=
  f.rules.any (fun r => match r with | .col _ => true | .cell _ => false)

/-- Field._comparison_columns: the set of compare_to names of the field's
column-comparison rules (Python builds a set: deduplicated). -/
def Field.comparisonColumns (f : Field) : List String :=
  (f.rules.filterMap (fun r =>
    match r with
    | .cell (.greaterThanColumn c) => some c
    | _ => none)).dedup

/-- Modelled from the spec: the all_errors reporting step of the Subject check
algorithm.  The snapshot's Field.__init__ drops the all_errors and
custom_error_msg keyword arguments before they reach _BaseSubject, and no
module under src/ consumes include_all_errors, so the filtering step exists
only in the spec, which states: when all_errors is false "only the first
recorded failure is kept (plus the mandatory not-null check outcome)". -/
def keptFailures (allErrors : Bool) (fs : List Err) : List Err :=
  if allErrors then fs
  else
    match fs with
    | [] => []
    | f :: rest => f :: rest.filter (fun er => er.kindOf == some FailKind.notNull)

/-- Modelled from the spec: the custom_error_msg step of the Subject check
algorithm (missing from src/ together with the all_errors step): when a
custom message is configured, "an extra Custom failure is always appended
regardless of all_errors" to a failing check's failures. -/
def customAppend (customErrorMsg : Option String) (fs : List Err) : List Err :=
  match customErrorMsg with
  | some m => fs ++ [.fail .custom m]
  | none => fs

/-- Field._check for cell rules (field.py): the Ignore override reports
nothing; a nullable field skips every cell rule when the raw value is the
empty string; otherwise the failures from _BaseSubject._check (with the
subject's strip flag), passed through the reporting options, wrap into a
Cell error node carrying the caller's coordinates. -/
def Field.checkCell (debug : Bool) (f : Field) (input : CellInput)
    (rix : Option Int := none) (cix : Int := -1) (name : Option String := none) :
    Option Err :=
  if f.isIgnore then none
  else if f.nullable && (input.cellVal == "") then none
  else
    let fs := cellCheckFailures debug f.strip f.cellRules input
    if fs.isEmpty then none
    else some (.cellE rix cix name (customAppend f.customErrorMsg (keptFailures f.allErrors fs)))

/-- Field._check for column rules (field.py): the Ignore override reports
nothing; otherwise the column Rule._pre_process strips each value when the
subject strips, each column rule runs in order, and failures wrap into a
Column error node. -/
def Field.checkColumn (f : Field) (vals : List String)
    (cix : Int := -1) (name : Option String := none) : Option Err :=
  if f.isIgnore then none
  else
    let vals := if f.strip then vals.map pyStrip else vals
    let fs := f.colRules.filterMap (fun r => checkOneCol r vals)
    if fs.isEmpty then none
    else some (.colE cix name fs)

/-- Header matching mode of a Layout (exact / startswith / contains). -/
inductive HeaderMode where
  | exact | startswith | contains
deriving DecidableEq, Repr

/-- Header rules (rumydata/rules/header.py). -/
inductive HeaderRule where
  | columnOrder | noExtra | noDuplicate | noMissing
deriving DecidableEq, Repr

/-- The failure kind of each header rule's rule_exception(). -/
def HeaderRule.kind : HeaderRule → FailKind
  | .columnOrder => .columnOrder
  | .noExtra => .noExtra
  | .noDuplicate => .noDuplicate
  | .noMissing => .noMissing

/-- The _explain() string of each header rule (verbatim from rules/header.py). -/
def HeaderRule.explain : HeaderRule → String
  | .columnOrder => "Header row must explicitly match order of definition"
  | .noExtra => "Header row must not have unexpected columns"
  | .noDuplicate => "Header row must not contain duplicate values"
  | .noMissing => "Header row must not be missing any expected columns"

/-- The matched-index list built by ColumnOrder / NoDuplicate under the
startswith and contains modes: for each observed token, the index of the
first expected name it matches ([...].index(True)); a token matching no
expected name raises ValueError. -/
def matchIxs (m : String → String → Bool) (keys : List String) :
    List String → Except PyExc (List Nat)
  | [] => .ok []
  | y :: ys =>
    match keys.findIdx? (fun z => m y z) with
    | none => .error ⟨"ValueError", "True is not in list"⟩
    | some i =>
      match matchIxs m keys ys with
      | .error pe => .error pe
      | .ok ixs => .ok (i :: ixs)

/-- Evaluator of each header rule (rules/header.py), parameterized by the
layout's expected key list and header mode.  A match y z in startswith mode
is y.startswith(z); in contains mode it is z in y (the expected name starts
or occurs inside the observed token). -/
def headerEval (keys : List String) (mode : HeaderMode) :
    HeaderRule → List String → Except PyExc Bool
  | .columnOrder, x =>
    match mode with
    | .exact => .ok (x == keys)
    | .startswith => (matchIxs pyStartsWith keys x).map (fun ixs => ixs == pySorted ixs)
    | .contains => (matchIxs (fun y z => pyIn z y) keys x).map (fun ixs => ixs == pySorted ixs)
  | .noDuplicate, x =>
    match mode with
    | .exact => .ok (x.length == pySetLen x)
    | .startswith => (matchIxs pyStartsWith keys x).map (fun ixs => ixs.length == pySetLen ixs)
    | .contains => (matchIxs (fun y z => pyIn z y) keys x).map (fun ixs => ixs.length == pySetLen ixs)
  | .noExtra, x =>
    .ok (match mode with
      | .exact => x.all (fun y => keys.contains y)
      | .startswith => x.all (fun y => keys.any (fun z => pyStartsWith y z))
      | .contains => x.all (fun y => keys.any (fun z => pyIn z y)))
  | .noMissing, x =>
    .ok (match mode with
      | .exact => keys.all (fun y => x.contains y)
      | .startswith => keys.all (fun y => x.any (fun z => pyStartsWith z y))
      | .contains => keys.all (fun y => x.any (fun z => pyIn y z)))

/-- One iteration of the rule loop in _BaseSubject._check for a header rule
(same structure as the cell case: sanitized failure on a false evaluation,
wrapped sanitized message when the evaluator raises). -/
def checkOneHeader (debug : Bool) (keys : List String) (mode : HeaderMode)
    (r : HeaderRule) (x : List String) : Option Err :=
  match headerEval keys mode r x with
  | .error pe => some (.fail r.kind (excWrapMsg debug pe r.explain))
  | .ok b => if b then none else some (.fail r.kind r.explain)

/-- Row rules (rumydata/rules/row.py) in the embedded fragment where
empty_cols_ok is false, so columns_length stays the layout's field count. -/
inductive RowRule where
  | rowLengthLTE | rowLengthGTE
deriving DecidableEq, Repr

/-- One iteration of the rule loop for a row rule (RowLengthLTE /
RowLengthGTE): the row's length compared against the field count, with the
verbatim explain strings. -/
def checkOneRowRule (fieldCount : Nat) (r : RowRule) (row : List String) : Option Err :=
  match r with
  | .rowLengthLTE =>
      if row.length ≤ fieldCount then none
      else some (.fail .rowLengthLTE
        ("row length must be equal to " ++ toString fieldCount ++ ", not greater"))
  | .rowLengthGTE =>
      if fieldCount ≤ row.length then none
      else some (.fail .rowLengthGTE
        ("row length must be equal to " ++ toString fieldCount ++ ", not less"))

/-- The ordered row-rule failures of a Layout check (Layout.__init__ adds
RowLengthLTE before RowLengthGTE). -/
def rowRuleFailures (fieldCount : Nat) (row : List String) : List Err :=
  [RowRule.rowLengthLTE, RowRule.rowLengthGTE].filterMap
    (fun r => checkOneRowRule fieldCount r row)

/-- Layout (rumydata/table.py): the ordered field map plus the header and row
options used by _check.  empty_cols_ok is outside the embedded fragment (see
the module comment). -/
structure Layout where
  fields : List (String × Field)
  skipHeader : Bool := false
  emptyRowOk : Bool := false
  headerMode : HeaderMode := .exact
  noHeader : Bool := false

/-- The expected column names in layout order (list(layout.keys())). -/
def Layout.keys (lay : Layout) : List String :=
  lay.fields.map Prod.fst

/-- Layout.field_count. -/
def Layout.fieldCount (lay : Layout) : Nat :=
  lay.fields.length

/-- Python `rix or -1`: 0 (and None) are falsy, so a zero row index is
reported as -1 by the RowError built for subject-level failures. -/
def pyIntOrNeg (rix : Int) : Int :=
  if rix == 0 then -1 else rix

/-- Layout._check for header rules: an early return when skip_header is set,
otherwise the four header rules run in the order Layout.__init__ added them
(ColumnOrder, NoExtra, NoDuplicate, NoMissing) and any failures wrap into a
Row error node indexed by `rix or -1`. -/
def Layout.checkHeader (debug : Bool) (lay : Layout) (row : List String) (rix : Int) :
    Option Err :=
  if lay.skipHeader then none
  else
    let e := [HeaderRule.columnOrder, .noExtra, .noDuplicate, .noMissing].filterMap
      (fun r => checkOneHeader debug lay.keys lay.headerMode r row)
    if e.isEmpty then none else some (.rowE (pyIntOrNeg rix) e)

/-- Whether a (name, value) pair of the zipped row is ignored: the field is an
Ignore field, or its value matches the field's _ignore_if configuration. -/
def ignoredFlag (lay : Layout) (kv : String × String) : Bool :=
  match pyLookup kv.1 lay.fields with
  | none => false
  | some f =>
    if f.isIgnore then true
    else
      match f.ignoreIf with
      | .many vs => vs.contains kv.2
      | .one v => kv.2 == v
      | .noneI => false

/-- The per-cell comparison dict {k: row[k] for k in t._comparison_columns()}:
looking a comparison column up in the zipped row raises KeyError when the
layout has no such column. -/
def compBuild (rowD : List (String × String)) : List String → Except PyExc (List (String × String))
  | [] => .ok []
  | k :: ks =>
    match pyLookup k rowD with
    | none => .error ⟨"KeyError", "'" ++ k ++ "'"⟩
    | some v =>
      match compBuild rowD ks with
      | .error pe => .error pe
      | .ok rest => .ok ((k, v) :: rest)

/-- The per-cell loop of Layout._check: each (name, value) of the zipped row
in order, with its enumerate index as the column coordinate, is checked by
its field against the cell rules with the assembled comparison values. -/
def cellsLoop (debug : Bool) (lay : Layout) (rowD : List (String × String)) (rix : Int) :
    Nat → List (String × String) → Except PyExc (List Err)
  | _, [] => .ok []
  | cix, (name, val) :: rest =>
    match pyLookup name lay.fields with
    | none => .error ⟨"KeyError", "'" ++ name ++ "'"⟩
    | some t =>
      match compBuild rowD t.comparisonColumns with
      | .error pe => .error pe
      | .ok comp =>
        let ce := t.checkCell debug (.tup val comp) (some rix) (Int.ofNat cix) (some name)
        match cellsLoop debug lay rowD rix (cix + 1) rest with
        | .error pe => .error pe
        | .ok es => .ok ((match ce with | some er => [er] | none => []) ++ es)

/-- Layout._check for row rules (table.py lines 141-173): the subject-level
row-length rules first (their failures wrap into a Row error indexed by
`rix or -1` and skip cell checks); then the row zips against the field names,
an entirely empty (or ignored) row passes when empty_row_ok, and otherwise the
per-cell checks run, wrapping any failures into a Row error indexed by rix. -/
def Layout.checkRow (debug : Bool) (lay : Layout) (row : List String) (rix : Int) :
    Except PyExc (Option Err) :=
  let e := rowRuleFailures lay.fieldCount row
  if !e.isEmpty then .ok (some (.rowE (pyIntOrNeg rix) e))
  else
    let rowD := lay.keys.zip row
    if lay.emptyRowOk && rowD.all (fun kv => (if ignoredFlag lay kv then "" else kv.2) == "") then
      .ok none
    else
      match cellsLoop debug lay rowD rix 0 rowD with
      | .error pe => .error pe
      | .ok ce => if ce.isEmpty then .ok none else .ok (some (.rowE rix ce))

/-- File-check configuration (_BaseFile.__init__ and check): skip_rows,
max_errors (an int, -1 advertised as unlimited), the process-wide debug flag,
and the outcome of the file-level pre-flight rules.  The pre-flight FileExists
rule consults the filesystem (and the MaxError / FileNameMatch rule classes
referenced by table.py are absent from the snapshot's rules/table.py, an older
module revision), so the pre-flight outcome enters as a boolean input. -/
structure FileCfg where
  skipRows : Nat := 0
  maxErrors : Int := 100
  debug : Bool := false
  fileRulesOk : Bool := true

/-- Modelled from the spec: the MaxError table rule (table.MaxError, missing
from the snapshot's rules/table.py).  Its _exception_msg is the "one terminal
MaxExceeded marker" the spec describes, appended when the row-error count
exceeds max_errors; the message text follows the max-error message of the
older revisions in src (file.py line 156). -/
def maxErrorMarker (maxErrors : Int) : Err :=
  .fail .maxExceeded ("max of " ++ toString maxErrors ++ " row errors exceeded")

/-- The initial column cache of _BaseFile._check: one empty entry per layout
field that has at least one column-scoped rule, in layout order. -/
def columnCacheInit (lay : Layout) : List (String × List String) :=
  (lay.fields.filter (fun kv => kv.2.hasColRule)).map (fun kv => (kv.1, []))

/-- The column_cache_map position of a cached field:
list(layout.keys()).index(k). -/
def layKeyIdx (lay : Layout) (k : String) : Nat :=
  lay.keys.findIdx (fun z => z == k)

/-- The per-row cache append of _BaseFile._check: every cached field k gains
row[column_cache_map[k]]; indexing past the row's end raises IndexError. -/
def cacheAppendRow (lay : Layout) (row : List String) :
    List (String × List String) → Except PyExc (List (String × List String))
  | [] => .ok []
  | (k, vs) :: rest =>
    match row.get? (layKeyIdx lay k) with
    | none => .error ⟨"IndexError", "list index out of range"⟩
    | some v =>
      match cacheAppendRow lay row rest with
      | .error pe => .error pe
      | .ok rest2 => .ok ((k, vs ++ [v]) :: rest2)

/-- The row loop of _BaseFile._check (table.py lines 270-319) in the
empty_cols_ok = false fragment: rows before skip_rows are skipped; the first
unskipped row is checked as the header unless no_header; later rows are
checked as data rows; a header failure is appended and ends the loop; a data
row failure is appended and, when the error count exceeds max_errors, the
MaxExceeded marker is appended and the loop ends; every data row that the loop
does not leave on appends its cached column values. -/
def rowsLoop (lay : Layout) (cfg : FileCfg) :
    List (List String) → Nat → List Err → List (String × List String) →
    Except PyExc (List Err × List (String × List String))
  | [], _, e, cache => .ok (e, cache)
  | row :: rest, rix, e, cache =>
    if rix < cfg.skipRows then
      rowsLoop lay cfg rest (rix + 1) e cache
    else
      match (if rix == cfg.skipRows && !lay.noHeader
             then .ok (lay.checkHeader cfg.debug row (Int.ofNat rix))
             else lay.checkRow cfg.debug row (Int.ofNat rix)) with
      | .error pe => .error pe
      | .ok (some er) =>
        if rix == cfg.skipRows && !lay.noHeader then
          .ok (e ++ [er], cache)
        else if (((e ++ [er]).length : Int) > cfg.maxErrors) then
          .ok (e ++ [er] ++ [maxErrorMarker cfg.maxErrors], cache)
        else
          match (if decide (cfg.skipRows < rix) || lay.noHeader
                 then cacheAppendRow lay row cache else .ok cache) with
          | .error pe => .error pe
          | .ok cache2 => rowsLoop lay cfg rest (rix + 1) (e ++ [er]) cache2
      | .ok none =>
        match (if decide (cfg.skipRows < rix) || lay.noHeader
               then cacheAppendRow lay row cache else .ok cache) with
        | .error pe => .error pe
        | .ok cache2 => rowsLoop lay cfg rest (rix + 1) e cache2

/-- The finalize pass of _BaseFile._check: each cached column runs its
field's column rules once, against the collected values, in cache order. -/
def columnFinalize (lay : Layout) : List (String × List String) → List Err
  | [] => []
  | (k, v) :: rest =>
    (match pyLookup k lay.fields with
     | some f =>
        match f.checkColumn v (Int.ofNat (layKeyIdx lay k)) (some k) with
        | some er => [er]
        | none => []
     | none => []) ++ columnFinalize lay rest

/-- _BaseFile._check (table.py lines 254-328) over an already-read row source:
pre-flight file rules first (their failure aborts with a File error before any
row is read), then the row loop from an empty error list and the initial
column cache, then the column finalize pass; a non-empty error list aggregates
into a single File error. -/
def fileCheck (lay : Layout) (cfg : FileCfg) (fname : String) (rows : List (List String)) :
    Except PyExc (Option Err) :=
  if !cfg.fileRulesOk then
    .ok (some (.fileE fname [.fail .fileRule "files must exist"]))
  else
    match rowsLoop lay cfg rows 0 [] (columnCacheInit lay) with
    | .error pe => .error pe
    | .ok (e, cache) =>
      let e2 := e ++ columnFinalize lay cache
      .ok (if e2.isEmpty then none else some (.fileE fname e2))

/-! Auxiliary definitions used only to state and prove the claims. -/

/-- The exception class (if any) that a rule's preparation raises on a datum. -/
def excClassOf (r : CellRule) (d : CellData) : Option String :=
  match r.prep d with
  | .error pe => some pe.name
  | .ok _ => none

/-- Whether a list of error nodes has a leaf failure of the given kind. -/
def errsHaveKind (k : FailKind) (l : List Err) : Bool :=
  l.any (fun er => er.kindOf == some k)

/-- Number of leaf failures of a given kind in a list of error nodes. -/
def countKind (k : FailKind) (l : List Err) : Nat :=
  l.countP (fun er => er.kindOf == some k)

/-- Whether a cell check result has a leaf failure of the given kind. -/
def cellHasFailKind (oe : Option Err) (k : FailKind) : Bool :=
  match oe with
  | some (.cellE _ _ _ ch) => errsHaveKind k ch
  | _ => false

/-! Helper lemmas. -/

theorem checkOneCell_kind {debug : Bool} {r : CellRule} {d : CellData} {er : Err}
    (h : checkOneCell debug r d = some er) : er.kindOf = some r.kind := by
  unfold checkOneCell at h
  rcases hp : r.prep d with pe | args <;> simp only [hp] at h
  · cases h; rfl
  · rcases he : r.eval args <;>
      simp only [he, Bool.false_eq_true, if_false, if_true, reduceIte] at h
    · cases h; rfl
    · cases h

theorem cellRule_kind_notNull {r : CellRule} (h : r.kind = .notNull) : r = .notNull := by
  cases r <;> simp [CellRule.kind] at h ⊢

theorem listLtChars_iff : ∀ as bs : List Char, listLtChars as bs = true ↔ List.Lex (· < ·) as bs
  | [], [] => by
      simp only [listLtChars, Bool.false_eq_true, false_iff]
      intro h; nomatch h
  | [], b :: bs => by
      simp only [listLtChars, true_iff]
      exact List.Lex.nil
  | a :: as, [] => by
      simp only [listLtChars, Bool.false_eq_true, false_iff]
      intro h; nomatch h
  | a :: as, b :: bs => by
      simp only [listLtChars, Bool.or_eq_true, Bool.and_eq_true, beq_iff_eq,
        decide_eq_true_eq]
      constructor
      · rintro (h | ⟨rfl, h⟩)
        · exact List.Lex.rel h
        · exact List.Lex.cons ((listLtChars_iff as bs).mp h)
      · intro h
        cases h with
        | rel hab => exact Or.inl hab
        | cons h3 => exact Or.inr ⟨rfl, (listLtChars_iff as bs).mpr h3⟩

/-- The embedded Python string comparison agrees with Lean's String order. -/
theorem pyStrGT_iff (x y : String) : pyStrGT x y = true ↔ y < x := by
  rw [pyStrGT, listLtChars_iff, String.lt_iff_toList_lt]
  exact Iff.rfl

theorem digit_ne_of {c x : Char} (h : c.isDigit = true) (hx : x.isDigit = false) :
    (c == x) = false := by
  rcases he : c == x
  · rfl
  · rw [beq_iff_eq] at he; subst he; rw [h] at hx; cases hx

theorem digit_not_ws {c : Char} (h : c.isDigit = true) : c.isWhitespace = false := by
  rcases hw : c.isWhitespace
  · rfl
  · exfalso
    simp [Char.isWhitespace] at hw
    rcases hw with ((h1 | h1) | h1) | h1 <;> subst h1 <;> exact absurd h (by decide)

theorem dropWhile_all_neg {p : Char → Bool} :
    ∀ l : List Char, (∀ c ∈ l, p c = false) → l.dropWhile p = l
  | [], _ => rfl
  | c :: rest, h => by
      rw [List.dropWhile_cons, h c (List.mem_cons_self c rest)]
      simp

theorem stripWs_of_all_not_ws {l : List Char} (h : ∀ c ∈ l, c.isWhitespace = false) :
    ((l.dropWhile Char.isWhitespace).reverse.dropWhile Char.isWhitespace).reverse = l := by
  rw [dropWhile_all_neg l h,
    dropWhile_all_neg l.reverse (fun c hc => h c (List.mem_reverse.mp hc)),
    List.reverse_reverse]

mutual

theorem pyIntDigits_all : ∀ l : List Char, l ≠ [] → (∀ c ∈ l, c.isDigit = true) →
    pyIntDigits l = true
  | [], h, _ => absurd rfl h
  | c :: rest, _, h => by
      rw [pyIntDigits, h c (by simp),
        pyIntTail_all rest (fun d hd => h d (by simp [hd]))]
      rfl

theorem pyIntTail_all : ∀ l : List Char, (∀ c ∈ l, c.isDigit = true) → pyIntTail l = true
  | [], _ => rfl
  | c :: rest, h => by
      rw [pyIntTail, digit_ne_of (h c (by simp)) (by decide)]
      simp [h c (by simp), pyIntTail_all rest (fun d hd => h d (by simp [hd]))]

end

theorem noLeadingZeroOk_of {t : List Char} (hall : ∀ c ∈ t, c.isDigit = true)
    (hcond : t = ['0'] ∨ (t ≠ [] ∧ t.head? ≠ some '0')) : noLeadingZeroOk t = true := by
  rcases hcond with rfl | ⟨hne, hhd⟩
  · rfl
  · rcases t with _ | ⟨c, rest⟩
    · exact absurd rfl hne
    · have hc : ¬ c = '0' := fun he => hhd (by subst he; rfl)
      rw [noLeadingZeroOk]
      have h1 : (c != '0') = true := bne_iff_ne.mpr hc
      have h2 : (c :: rest).all Char.isDigit = true := List.all_eq_true.mpr hall
      rw [h1, h2]
      simp

/-- The claim's integer-literal regex -?(0|[1-9]\d*) as a predicate: optional
sign, then a non-empty all-digit run that is either the single digit 0 or
does not start with 0. -/
def intLitB (s : String) : Bool :=
  let l := s.toList
  let t := if l.head? == some '-' then l.tail else l
  !t.isEmpty && (t.all Char.isDigit && (t == ['0'] || t.head? != some '0'))

theorem intLit_core {t : List Char} (hne : t ≠ []) (hall : ∀ c ∈ t, c.isDigit = true)
    (hcond : t = ['0'] ∨ t.head? ≠ some '0') :
    pyIntDigits t = true ∧ noLeadingZeroOk t = true ∧ t.filter Char.isDigit = t :=
  ⟨pyIntDigits_all t hne hall,
   noLeadingZeroOk_of hall (hcond.imp id (fun h => ⟨hne, h⟩)),
   List.filter_eq_self.mpr hall⟩

theorem intLit_facts {s : String} (h : intLitB s = true) :
    (s != "") = true ∧ pyIntParses s = true ∧ noLeadingZeroOk (pyDigits s) = true := by
  unfold intLitB at h
  rcases hl : s.toList with _ | ⟨c, ls⟩
  · rw [hl] at h
    simp at h
  · have hsne : (s != "") = true := by
      refine bne_iff_ne.mpr (fun he => ?_)
      rw [he] at hl
      exact List.cons_ne_nil c ls hl.symm
    rw [hl] at h
    simp only [List.head?_cons, List.tail_cons,
      show (some c == some '-') = (c == '-') from rfl] at h
    rcases hsgn : c == '-'
    · rw [hsgn] at h
      simp only [Bool.false_eq_true, if_false, Bool.and_eq_true, Bool.not_eq_true',
        Bool.or_eq_true, beq_iff_eq, bne_iff_ne, List.all_eq_true,
        List.isEmpty_eq_false] at h
      obtain ⟨-, hall, hcond⟩ := h
      obtain ⟨hpid, hnlz, hfil⟩ := intLit_core (List.cons_ne_nil c ls) hall hcond
      refine ⟨hsne, ?_, ?_⟩
      · unfold pyIntParses
        rw [hl, stripWs_of_all_not_ws (fun d hd => digit_not_ws (hall d hd))]
        have hplus : (c == '+') = false :=
          digit_ne_of (hall c (List.mem_cons_self c ls)) (by decide)
        have hsign2 : (c == '+' || c == '-') = false := by rw [hplus, hsgn]; rfl
        simp only [hsign2, Bool.false_eq_true, if_false]
        exact hpid
      · unfold pyDigits
        rw [hl, hfil]
        exact hnlz
    · rw [hsgn] at h
      rw [beq_iff_eq] at hsgn
      subst hsgn
      simp only [if_true, Bool.and_eq_true, Bool.not_eq_true', Bool.or_eq_true,
        beq_iff_eq, bne_iff_ne, List.all_eq_true, List.isEmpty_eq_false] at h
      obtain ⟨hne, hall, hcond⟩ := h
      obtain ⟨hpid, hnlz, hfil⟩ := intLit_core hne hall hcond
      refine ⟨hsne, ?_, ?_⟩
      · unfold pyIntParses
        rw [hl, stripWs_of_all_not_ws ?hws]
        case hws =>
          intro d hd
          rcases List.mem_cons.mp hd with rfl | hd2
          · decide
          · exact digit_not_ws (hall d hd2)
        have hsign2 : ('-' == '+' || '-' == '-') = true := by decide
        simp only [hsign2, if_true]
        exact hpid
      · unfold pyDigits
        rw [hl, List.filter_cons_of_neg (by decide), hfil]
        exact hnlz

theorem integer_cellRules (maxLen : Nat) (minLen : Option Nat) :
    (Field.integer maxLen minLen).cellRules =
      [.notNull, .canBeInteger, .noLeadingZero, .maxDigit maxLen] ++
      (match minLen with
       | some n => if n == 0 then [] else [.minDigit n]
       | none => []) := by
  rcases minLen with _ | n
  · rfl
  · rcases h : n == 0 <;> simp [Field.integer, Field.base, Field.cellRules, h]

theorem integer_strip (maxLen : Nat) (minLen : Option Nat) :
    (Field.integer maxLen minLen).strip = false := by
  rcases minLen with _ | n <;> rfl

theorem checkCell_none_of_no_failures {debug : Bool} {f : Field} {input : CellInput}
    (rix : Option Int) (cix : Int) (name : Option String)
    (h : cellCheckFailures debug f.strip f.cellRules input = []) :
    f.checkCell debug input rix cix name = none := by
  unfold Field.checkCell
  split
  · rfl
  · split
    · rfl
    · simp [h]

theorem length_eq_dedup_iff_nodup {α : Type} [DecidableEq α] (l : List α) :
    l.length = l.dedup.length ↔ l.Nodup := by
  constructor
  · intro h
    exact List.dedup_eq_self.mp ((List.dedup_sublist l).eq_of_length h.symm)
  · intro h
    rw [List.dedup_eq_self.mpr h]

/-! C5. -/

/-- C5: a Field constructed with nullable=True, whatever additional cell
rules it carries, reports nothing when the checked cell value is the empty
string (bare or in the tuple form): all cell rules are skipped, not just the
not-null rule. -/
theorem claim_C5_nullable_empty_skips_all_rules (debug : Bool) (f : Field)
    (input : CellInput) (rix : Option Int) (cix : Int) (name : Option String)
    (hnul : f.nullable = true) (hval : input.cellVal = "") :
    f.checkCell debug input rix cix name = none := by
  unfold Field.checkCell
  rcases hi : f.isIgnore <;> simp [hnul, hval]

/-- Witness for C5 at a concrete nullable field carrying extra cell rules,
checked on the bare empty string and on a tuple with an empty cell value. -/
theorem claim_C5_witness :
    (Field.base true [.cell (.minChar 3), .cell .onlyNumbers]).nullable = true ∧
    (CellInput.raw "").cellVal = "" ∧
    (Field.base true [.cell (.minChar 3), .cell .onlyNumbers]).checkCell false
      (.raw "") none (-1) none = none ∧
    (Field.base true [.cell (.minChar 3), .cell .onlyNumbers]).checkCell false
      (.tup "" [("b", "9")]) none (-1) none = none :=
  ⟨rfl, rfl,
    claim_C5_nullable_empty_skips_all_rules false _ _ none (-1) none rfl rfl,
    claim_C5_nullable_empty_skips_all_rules false _ _ none (-1) none rfl rfl⟩

/-! C4. -/

/-- C4: with debug off, the recorded failure for a violated rule is a
function of the rule alone (plus, on the internal-exception path, the
exception's class) and never of the datum: any two data that fail the same
rule the same way record identical failures, and on the evaluation-failure
path the recorded message is exactly the rule's explain string, which is
computed from the rule without reference to the value under test, so the
message never echoes the value. -/
theorem claim_C4_sanitized_failure_messages (r : CellRule) (d1 d2 : CellData)
    (h1 : (checkOneCell false r d1).isSome = true)
    (h2 : (checkOneCell false r d2).isSome = true)
    (hsame : excClassOf r d1 = excClassOf r d2) :
    checkOneCell false r d1 = checkOneCell false r d2 ∧
      (excClassOf r d1 = none →
        checkOneCell false r d1 = some (.fail r.kind r.explain)) := by
  unfold checkOneCell excClassOf at *
  rcases hp1 : r.prep d1 with pe1 | a1 <;> simp only [hp1] at h1 hsame ⊢ <;>
    rcases hp2 : r.prep d2 with pe2 | a2 <;> simp only [hp2] at h2 hsame ⊢
  · injection hsame with hn
    refine ⟨?_, by intro h; cases h⟩
    simp [excWrapMsg, hn]
  · cases hsame
  · cases hsame
  · rcases he1 : r.eval a1
    · rcases he2 : r.eval a2
      · simp [he1, he2]
      · simp [he2] at h2
    · simp [he1] at h1

/-- Witness for C4: two distinct values that both violate MaxChar(1) record
the same failure, whose message is the rule's explain string; and two distinct
bare-string data that both make GreaterThanColumn's preparation raise
TypeError record the same wrapped failure. -/
theorem claim_C4_witness :
    ((checkOneCell false (.maxChar 1) (.str "ab")).isSome = true ∧
     (checkOneCell false (.maxChar 1) (.str "xyz")).isSome = true ∧
     excClassOf (.maxChar 1) (.str "ab") = excClassOf (.maxChar 1) (.str "xyz") ∧
     checkOneCell false (.maxChar 1) (.str "ab") = checkOneCell false (.maxChar 1) (.str "xyz") ∧
     checkOneCell false (.maxChar 1) (.str "ab") =
       some (.fail .maxChar "must be no more than 1 characters")) ∧
    ((checkOneCell false (.greaterThanColumn "b") (.str "ab")).isSome = true ∧
     (checkOneCell false (.greaterThanColumn "b") (.str "xyz")).isSome = true ∧
     excClassOf (.greaterThanColumn "b") (.str "ab") =
       excClassOf (.greaterThanColumn "b") (.str "xyz") ∧
     checkOneCell false (.greaterThanColumn "b") (.str "ab") =
       checkOneCell false (.greaterThanColumn "b") (.str "xyz")) :=
  ⟨⟨rfl, rfl, rfl,
    (claim_C4_sanitized_failure_messages (.maxChar 1) (.str "ab") (.str "xyz") rfl rfl rfl).1,
    (claim_C4_sanitized_failure_messages (.maxChar 1) (.str "ab") (.str "xyz") rfl rfl rfl).2 rfl⟩,
   ⟨rfl, rfl, rfl,
    (claim_C4_sanitized_failure_messages (.greaterThanColumn "b")
      (.str "ab") (.str "xyz") rfl rfl rfl).1⟩⟩

/-! C9. -/

/-- C9: the Unique column rule ignores blank values: a field carrying it
passes a column check exactly when the non-empty values of the column are
pairwise distinct; in particular ["", "", "x"] passes and ["x", "x"] fails. -/
theorem claim_C9_unique_ignores_blanks :
    (∀ vals : List String,
        (Field.base false [.col .unique]).checkColumn vals = none ↔
          (vals.filter (fun v => !(v == ""))).Nodup) ∧
    (Field.base false [.col .unique]).checkColumn ["", "", "x"] = none ∧
    (Field.base false [.col .unique]).checkColumn ["x", "x"] =
      some (.colE (-1) none [.fail .unique "values must be unique"]) := by
  refine ⟨?_, rfl, rfl⟩
  intro vals
  by_cases hn : (vals.filter (fun v => !(v == ""))).Nodup
  · have hl := (length_eq_dedup_iff_nodup (vals.filter (fun v => !(v == "")))).mpr hn
    simp [Field.checkColumn, Field.base, Field.colRules, checkOneCol, pySetLen, hl, hn]
  · have hl : ¬ (vals.filter (fun v => !(v == ""))).length =
        (vals.filter (fun v => !(v == ""))).dedup.length :=
      fun h => hn ((length_eq_dedup_iff_nodup _).mp h)
    simp [Field.checkColumn, Field.base, Field.colRules, checkOneCol, pySetLen, hl, hn]

/-! C10. -/

/-- The two-field layout used to exhibit the lexicographic comparison through
Layout._check: field a is an Integer carrying GreaterThanColumn("b"). -/
def gtcLayout : Layout :=
  { fields := [("a", Field.integer 2 none false [.cell (.greaterThanColumn "b")]),
               ("b", Field.integer 1)] }

/-- C10: the GreaterThanColumn rule compares the raw cell strings with the
string (lexicographic) order, not numerically: it passes exactly when the
cell value is greater than the compared column's value as strings; through
Layout._check the row ["10", "9"] therefore fails the comparison on field a
even though 10 > 9 numerically. -/
theorem claim_C10_greater_than_column_lexicographic :
    (∀ x y : String,
        checkOneCell false (.greaterThanColumn "b") (.pair x [("b", y)]) = none ↔ y < x) ∧
    gtcLayout.checkRow false ["10", "9"] 1 =
      .ok (some (.rowE 1 [.cellE (some 1) 0 (some "a")
        [.fail .greaterThanColumn "must be greater than column 'b'"]])) ∧
    (9 : Nat) < 10 := by
  have p1 : ∀ x y : String,
      checkOneCell false (.greaterThanColumn "b") (.pair x [("b", y)]) = none ↔ y < x := by
    intro x y
    rw [← pyStrGT_iff]
    rcases h : pyStrGT x y
    · simp [checkOneCell, CellRule.prep, pyLookup, CellRule.eval, h]
    · simp [checkOneCell, CellRule.prep, pyLookup, CellRule.eval, h]
  have p2 : gtcLayout.checkRow false ["10", "9"] 1 =
      .ok (some (.rowE 1 [.cellE (some 1) 0 (some "a")
        [.fail .greaterThanColumn "must be greater than column 'b'"]])) := rfl
  exact ⟨p1, p2, by decide⟩

/-! C7. -/

/-- C7: the Integer field accepts every string matching -?(0|[1-9]\d*) whose
digit count respects the configured max_length and (when given) min_length
bound, reporting no failure; and every string whose digit sequence, ignoring
sign and non-digit characters, is longer than one digit and starts with 0
receives a LeadingZero (NoLeadingZero rule) failure. -/
theorem claim_C7_integer_field (s : String) (maxLen : Nat) (minLen : Option Nat) :
    (intLitB s = true → (pyDigits s).length ≤ maxLen →
      (∀ n, minLen = some n → n ≤ (pyDigits s).length) →
      (Field.integer maxLen minLen).checkCell false (.raw s) none (-1) none = none) ∧
    (1 < (pyDigits s).length → (pyDigits s).head? = some '0' →
      cellHasFailKind ((Field.integer maxLen minLen).checkCell false (.raw s) none (-1) none)
        .noLeadingZero = true) := by
  constructor
  · intro h hmax hmin
    obtain ⟨hnn, hpi, hnlz⟩ := intLit_facts h
    refine checkCell_none_of_no_failures none (-1) none ?_
    rw [integer_strip, integer_cellRules]
    unfold cellCheckFailures
    rw [show preProcessCell false (.raw s) = .ok (.str s) from rfl]
    rw [List.filterMap_eq_nil_iff]
    have e1 : checkOneCell false .notNull (.str s) = none := by
      simp [checkOneCell, CellRule.prep, CellRule.eval, CellData.fstVal, bne_iff_ne.mp hnn]
    have e2 : checkOneCell false .canBeInteger (.str s) = none := by
      simp [checkOneCell, CellRule.prep, CellRule.eval, CellData.fstVal, hpi]
    have e3 : checkOneCell false .noLeadingZero (.str s) = none := by
      simp [checkOneCell, CellRule.prep, CellRule.eval, CellData.fstVal, hnlz]
    have e4 : checkOneCell false (.maxDigit maxLen) (.str s) = none := by
      simp [checkOneCell, CellRule.prep, CellRule.eval, CellData.fstVal, hmax]
    intro r hr
    rcases minLen with _ | n
    · simp only [List.append_nil] at hr
      simp at hr
      rcases hr with rfl | rfl | rfl | rfl
      exacts [e1, e2, e3, e4]
    · rcases hn0 : n == 0 <;> simp [hn0] at hr
      · rcases hr with rfl | rfl | rfl | rfl | rfl
        exacts [e1, e2, e3, e4,
          by simp [checkOneCell, CellRule.prep, CellRule.eval, CellData.fstVal, hmin n rfl]]
      · rcases hr with rfl | rfl | rfl | rfl
        exacts [e1, e2, e3, e4]
  · intro hlen hhd
    have hfail : noLeadingZeroOk (pyDigits s) = false := by
      rcases hd : pyDigits s with _ | ⟨c, rest⟩
      · rw [hd] at hhd; cases hhd
      · rw [hd] at hhd hlen
        simp only [List.head?_cons, Option.some.injEq] at hhd
        subst hhd
        have hrne : rest.isEmpty = false := by
          rcases rest with _ | _
          · simp at hlen
          · rfl
        rw [noLeadingZeroOk]
        simp [hrne]
    have hmem : Err.fail .noLeadingZero (CellRule.noLeadingZero).explain ∈
        cellCheckFailures false (Field.integer maxLen minLen).strip
          (Field.integer maxLen minLen).cellRules (.raw s) := by
      rw [integer_strip, integer_cellRules]
      unfold cellCheckFailures
      rw [show preProcessCell false (.raw s) = .ok (.str s) from rfl]
      refine List.mem_filterMap.mpr ⟨.noLeadingZero, ?_, ?_⟩
      · rcases minLen with _ | n
        · simp
        · rcases hn0 : n == 0 <;> simp
      · simp [checkOneCell, CellRule.prep, CellRule.eval, CellData.fstVal, CellRule.kind, hfail]
    unfold Field.checkCell
    rw [if_neg ?hig]
    case hig =>
      rcases minLen with _ | n <;> simp [Field.integer, Field.base]
    rw [if_neg ?hnul]
    case hnul =>
      rcases minLen with _ | n <;> simp [Field.integer, Field.base]
    rw [if_neg (by intro hemp; rw [List.isEmpty_iff] at hemp; rw [hemp] at hmem; cases hmem)]
    show errsHaveKind _ _ = true
    have hcust : (Field.integer maxLen minLen).customErrorMsg = none := by
      rcases minLen with _ | n <;> rfl
    have hall : (Field.integer maxLen minLen).allErrors = true := by
      rcases minLen with _ | n <;> rfl
    rw [hcust, hall]
    unfold customAppend keptFailures
    simp only [if_true]
    exact List.any_eq_true.mpr ⟨_, hmem, by rfl⟩

/-- Witness for C7: "-12" within a max of 2 digits (min 1) passes the Integer
field, and "-012" always receives the LeadingZero failure. -/
theorem claim_C7_witness :
    (intLitB "-12" = true ∧ (pyDigits "-12").length ≤ 2 ∧
      (Field.integer 2 (some 1)).checkCell false (.raw "-12") none (-1) none = none) ∧
    (1 < (pyDigits "-012").length ∧ (pyDigits "-012").head? = some '0' ∧
      cellHasFailKind ((Field.integer 3 none).checkCell false (.raw "-012") none (-1) none)
        .noLeadingZero = true) :=
  ⟨⟨by decide, by decide,
    (claim_C7_integer_field "-12" 2 (some 1)).1 (by decide) (by decide)
      (fun n hn => by injection hn with h2; subst h2; decide)⟩,
   ⟨by decide, by rfl,
    (claim_C7_integer_field "-012" 3 none).2 (by decide) (by rfl)⟩⟩


/-! C8. -/

theorem pySorted_fixpoint (l : List Nat) :
    (l == pySorted l) = true ↔ List.Sorted (fun a b => a ≤ b) l := by
  rw [beq_iff_eq, pySorted]
  constructor
  · intro h
    rw [h]
    exact List.sorted_insertionSort _ l
  · intro h
    exact (List.Sorted.insertionSort_eq h).symm

/-- C8: under header_mode startswith (and analogously contains) the
ColumnOrder header rule maps each observed token to the index of the first
expected field name matching it and passes exactly when that index list is
non-decreasing; for expected [a, b, c] the observed header [a1, c1, b1] fails
ColumnOrder even though every token matches exactly one expected name; and
under exact mode the rule passes exactly when the observed header equals the
expected name list in order. -/
theorem claim_C8_column_order_modes :
    (∀ (keys x : List String) (ixs : List Nat),
        matchIxs pyStartsWith keys x = .ok ixs →
        (checkOneHeader false keys .startswith .columnOrder x = none ↔
          List.Sorted (fun a b => a ≤ b) ixs)) ∧
    (∀ (keys x : List String) (ixs : List Nat),
        matchIxs (fun y z => pyIn z y) keys x = .ok ixs →
        (checkOneHeader false keys .contains .columnOrder x = none ↔
          List.Sorted (fun a b => a ≤ b) ixs)) ∧
    ((["a", "b", "c"].filter (fun z => pyStartsWith "a1" z)).length = 1 ∧
     (["a", "b", "c"].filter (fun z => pyStartsWith "c1" z)).length = 1 ∧
     (["a", "b", "c"].filter (fun z => pyStartsWith "b1" z)).length = 1) ∧
    checkOneHeader false ["a", "b", "c"] .startswith .columnOrder ["a1", "c1", "b1"] =
      some (.fail .columnOrder "Header row must explicitly match order of definition") ∧
    (∀ keys x : List String,
        checkOneHeader false keys .exact .columnOrder x = none ↔ x = keys) := by
  have core : ∀ (ixs : List Nat),
      ((if (ixs == pySorted ixs) = true then none
        else some (Err.fail HeaderRule.columnOrder.kind HeaderRule.columnOrder.explain)) = none ↔
        List.Sorted (fun a b => a ≤ b) ixs) := by
    intro ixs
    rcases hb : ixs == pySorted ixs
    · refine iff_of_false (by simp) (fun hs => ?_)
      have h2 := (pySorted_fixpoint ixs).mpr hs
      rw [hb] at h2
      cases h2
    · exact iff_of_true (by simp) ((pySorted_fixpoint ixs).mp hb)
  refine ⟨?_, ?_, by decide, rfl, ?_⟩
  · intro keys x ixs hm
    simp only [checkOneHeader, headerEval, hm, Except.map]
    exact core ixs
  · intro keys x ixs hm
    simp only [checkOneHeader, headerEval, hm, Except.map]
    exact core ixs
  · intro keys x
    simp only [checkOneHeader, headerEval]
    rcases hb : x == keys
    · refine iff_of_false (by simp) (fun he => ?_)
      rw [he] at hb
      simp at hb
    · exact iff_of_true (by simp) (by rwa [beq_iff_eq] at hb)

/-- Witness for C8 at concrete headers: a startswith header whose matched
index list is sorted passes ColumnOrder, and an exactly-matching header passes
under exact mode. -/
theorem claim_C8_witness :
    matchIxs pyStartsWith ["a", "b"] ["a1", "b2"] = .ok [0, 1] ∧
    checkOneHeader false ["a", "b"] .startswith .columnOrder ["a1", "b2"] = none ∧
    checkOneHeader false ["a", "b"] .exact .columnOrder ["a", "b"] = none :=
  ⟨rfl,
   (claim_C8_column_order_modes.1 ["a", "b"] ["a1", "b2"] [0, 1] rfl).mpr (by decide),
   (claim_C8_column_order_modes.2.2.2.2 ["a", "b"] ["a", "b"]).mpr rfl⟩

/-! C6. -/

theorem checkOneCell_shape {debug : Bool} {r : CellRule} {d : CellData} {er : Err}
    (h : checkOneCell debug r d = some er) : ∃ msg, er = .fail r.kind msg := by
  unfold checkOneCell at h
  rcases hp : r.prep d with pe | args <;> simp only [hp] at h
  · cases h
    exact ⟨_, rfl⟩
  · rcases he : r.eval args <;>
      simp only [he, Bool.false_eq_true, if_false, if_true, reduceIte] at h
    · cases h
      exact ⟨_, rfl⟩
    · cases h

theorem kept_of_notNull_tail (A : List Err) (nn : Err)
    (hA : ∀ er ∈ A, (er.kindOf == some FailKind.notNull) = false)
    (hnn : (nn.kindOf == some FailKind.notNull) = true) :
    countKind .notNull (A ++ [nn]) = 1 ∧
    countKind .notNull (keptFailures false (A ++ [nn])) = 1 ∧
    ∀ er ∈ keptFailures false (A ++ [nn]),
      er.kindOf = some .notNull ∨ er ∈ (A ++ [nn]).take 1 := by
  have hc1 : countKind .notNull (A ++ [nn]) = 1 := by
    rw [countKind, List.countP_append]
    rw [List.countP_eq_zero.mpr (by
      intro a ha
      rw [hA a ha]
      exact Bool.false_ne_true)]
    simp [List.countP_cons, hnn]
  rcases A with _ | ⟨a, A2⟩
  · have hkept : keptFailures false ([] ++ [nn]) = [nn] := by
      unfold keptFailures
      simp
    refine ⟨hc1, ?_, ?_⟩
    · rw [hkept]
      simp [countKind, List.countP_cons, hnn]
    · intro er her
      rw [hkept] at her
      simp only [List.mem_singleton] at her
      subst her
      exact Or.inl (eq_of_beq hnn)
  · have hfilter : (A2 ++ [nn]).filter (fun er => er.kindOf == some FailKind.notNull) =
        [nn] := by
      rw [List.filter_append]
      rw [List.filter_eq_nil_iff.mpr (by
        intro x hx
        rw [hA x (List.mem_cons_of_mem a hx)]
        exact Bool.false_ne_true)]
      simp [hnn]
    have hkept : keptFailures false ((a :: A2) ++ [nn]) = [a, nn] := by
      unfold keptFailures
      simp only [Bool.false_eq_true, if_false, List.cons_append, reduceIte]
      rw [hfilter]
    refine ⟨hc1, ?_, ?_⟩
    · rw [hkept]
      simp [countKind, List.countP_cons, hnn, hA a (List.mem_cons_self a A2)]
    · intro er her
      rw [hkept] at her
      rcases List.mem_cons.mp her with rfl | her2
      · right
        simp
      · simp only [List.mem_singleton] at her2
        subst her2
        exact Or.inl (eq_of_beq hnn)

/-- C6 (amended): for every Field built with nullable=False whose rule list
does not itself contain a NotNull rule, checking the empty string records
exactly one failure of NullValue (NotNull) kind among the cell-rule failures;
when all_errors is false the kept failures still contain exactly one NullValue
failure, and every other kept failure is the first recorded failure — so the
NullValue failure is the only one kept exactly when no user-supplied rule
preceding the NotNull rule fails on the empty string. -/
theorem claim_C6_amended_nonnullable_empty (debug strip : Bool) (rs : List FieldRule)
    (hnn : FieldRule.cell CellRule.notNull ∉ rs) :
    countKind .notNull
      (cellCheckFailures debug strip (Field.base false rs strip).cellRules (.raw "")) = 1 ∧
    countKind .notNull
      (keptFailures false
        (cellCheckFailures debug strip (Field.base false rs strip).cellRules (.raw ""))) = 1 ∧
    ∀ er ∈ keptFailures false
        (cellCheckFailures debug strip (Field.base false rs strip).cellRules (.raw "")),
      er.kindOf = some .notNull ∨
        er ∈ (cellCheckFailures debug strip
          (Field.base false rs strip).cellRules (.raw "")).take 1 := by
  have hd : preProcessCell strip (.raw "") = .ok (.str "") := by rcases strip <;> rfl
  have hcr : (Field.base false rs strip).cellRules =
      (rs.filterMap fun fr => match fr with | .cell c => some c | .col _ => none) ++
        [.notNull] := by
    simp [Field.base, Field.cellRules]
  have hF : cellCheckFailures debug strip (Field.base false rs strip).cellRules (.raw "") =
      ((rs.filterMap fun fr => match fr with | .cell c => some c | .col _ => none).filterMap
        (fun r => checkOneCell debug r (.str ""))) ++
        [Err.fail .notNull "cannot be empty/blank"] := by
    unfold cellCheckFailures
    rw [hd]
    show ((Field.base false rs strip).cellRules.filterMap
        (fun r => checkOneCell debug r (.str ""))) = _
    rw [hcr, List.filterMap_append]
    rfl
  have hA : ∀ er ∈ (rs.filterMap fun fr =>
        match fr with | .cell c => some c | .col _ => none).filterMap
      (fun r => checkOneCell debug r (.str "")),
      (er.kindOf == some FailKind.notNull) = false := by
    intro er her
    obtain ⟨r, hrmem, hone⟩ := List.mem_filterMap.mp her
    obtain ⟨msg, rfl⟩ := checkOneCell_shape hone
    have hrne : r ≠ .notNull := by
      intro he
      subst he
      obtain ⟨fr, hfr, hfr2⟩ := List.mem_filterMap.mp hrmem
      rcases fr with c | c
      · simp only [Option.some.injEq] at hfr2
        subst hfr2
        exact hnn hfr
      · cases hfr2
    show (r.kind == FailKind.notNull) = false
    rcases hk : r.kind == FailKind.notNull
    · rfl
    · exfalso
      rw [beq_iff_eq] at hk
      exact hrne (cellRule_kind_notNull hk)
  rw [hF]
  exact kept_of_notNull_tail _ _ hA rfl

/-- Witness for C6 at a concrete field whose extra rule passes on the empty
string. -/
theorem claim_C6_witness :
    (FieldRule.cell CellRule.notNull ∉ [FieldRule.cell (CellRule.maxChar 1)]) ∧
    countKind .notNull (cellCheckFailures false false
      (Field.base false [FieldRule.cell (CellRule.maxChar 1)] false).cellRules
      (.raw "")) = 1 ∧
    countKind .notNull (keptFailures false (cellCheckFailures false false
      (Field.base false [FieldRule.cell (CellRule.maxChar 1)] false).cellRules
      (.raw ""))) = 1 :=
  ⟨by decide,
   (claim_C6_amended_nonnullable_empty false false [FieldRule.cell (CellRule.maxChar 1)]
     (by decide)).1,
   (claim_C6_amended_nonnullable_empty false false [FieldRule.cell (CellRule.maxChar 1)]
     (by decide)).2.1⟩

/-- C6 counterexample: with all_errors = false, a non-nullable field whose
user rule list starts with MinChar(1) keeps two failures on the empty string —
the MinChar failure first and then the NullValue one — refuting "exactly one
failure, of NullValue kind, and no other failures". -/
theorem claim_C6_counterexample :
    (Field.base false [.cell (.minChar 1)] false false).checkCell false (.raw "")
        none (-1) none =
      some (.cellE none (-1) none
        [.fail .minChar "must be at least 1 characters",
         .fail .notNull "cannot be empty/blank"]) ∧
    errsHaveKind .minChar
      [Err.fail .minChar "must be at least 1 characters",
       Err.fail .notNull "cannot be empty/blank"] = true :=
  ⟨rfl, rfl⟩


/-! C1. -/

def c1Layout : Layout := { fields := [("x", Field.base false [])] }

/-- C1 evaluation at the failing input: on a file whose header matches and
whose single data row is corrupt (an empty non-nullable cell), max_errors = -1
appends the MaxExceeded marker and stops after the first row error, because
len(e) > -1 always holds — the code's own documentation ("-1 = unlimited")
and the claim say no marker should ever be produced.  The boundary itself
behaves as claimed: max_errors = 0 yields the marker, max_errors = 1 does
not. -/
theorem claim_C1_max_errors_boundary_and_neg1 :
    fileCheck c1Layout { maxErrors := -1 } "f" [["x"], [""]] =
      .ok (some (.fileE "f"
        [.rowE 1 [.cellE (some 1) 0 (some "x") [.fail .notNull "cannot be empty/blank"]],
         .fail .maxExceeded "max of -1 row errors exceeded"])) ∧
    fileCheck c1Layout { maxErrors := 0 } "f" [["x"], [""]] =
      .ok (some (.fileE "f"
        [.rowE 1 [.cellE (some 1) 0 (some "x") [.fail .notNull "cannot be empty/blank"]],
         .fail .maxExceeded "max of 0 row errors exceeded"])) ∧
    fileCheck c1Layout { maxErrors := 1 } "f" [["x"], [""]] =
      .ok (some (.fileE "f"
        [.rowE 1 [.cellE (some 1) 0 (some "x") [.fail .notNull "cannot be empty/blank"]]])) :=
  ⟨rfl, rfl, rfl⟩

/-! C3. -/


theorem rowsLoop_skip (lay : Layout) (cfg : FileCfg) :
    ∀ (pre rest : List (List String)) (rix : Nat) (e : List Err)
      (cache : List (String × List String)),
      rix + pre.length ≤ cfg.skipRows →
      rowsLoop lay cfg (pre ++ rest) rix e cache =
        rowsLoop lay cfg rest (rix + pre.length) e cache
  | [], rest, rix, e, cache, _ => by simp
  | p :: pre, rest, rix, e, cache, h => by
      simp only [List.length_cons] at h
      rw [List.cons_append, rowsLoop, if_pos (by omega),
        rowsLoop_skip lay cfg pre rest (rix + 1) e cache (by omega)]
      congr 1
      simp only [List.length_cons]
      omega

theorem checkColumn_nil (f : Field) (cix : Int) (name : Option String) :
    f.checkColumn [] cix name = none := by
  unfold Field.checkColumn
  rcases hi : f.isIgnore
  · rcases hs : f.strip <;>
    · simp [hi, hs]
      intro r hr
      rcases r
      rfl
  · simp [hi]

theorem columnFinalize_empty (lay : Layout) :
    ∀ entries : List (String × List String),
      (∀ kv ∈ entries, kv.2 = ([] : List String)) →
      columnFinalize lay entries = []
  | [], _ => rfl
  | (k, v) :: rest, h => by
      rw [columnFinalize]
      have hv : v = [] := h (k, v) (List.mem_cons_self _ _)
      subst hv
      rw [columnFinalize_empty lay rest (fun kv hkv => h kv (List.mem_cons_of_mem _ hkv))]
      rcases hlk : pyLookup k lay.fields with _ | f
      · rfl
      · simp [checkColumn_nil]

theorem columnCacheInit_empty (lay : Layout) :
    ∀ kv ∈ columnCacheInit lay, kv.2 = ([] : List String) := by
  intro kv hkv
  obtain ⟨kv0, _, rfl⟩ := List.mem_map.mp hkv
  rfl

/-- C3: when the header row (the first row after skip_rows, with no_header
false) fails a header rule, the file check stops: the result is the File error
holding exactly the header Row error, for every possible continuation of the
file — no later row is read, no Row/Cell check runs on them, and no data-row
error appears. -/
theorem claim_C3_header_failure_terminal (lay : Layout) (cfg : FileCfg) (fname : String)
    (pre rest : List (List String)) (hrow : List String) (er : Err)
    (hfr : cfg.fileRulesOk = true) (hnh : lay.noHeader = false)
    (hpre : pre.length = cfg.skipRows)
    (hhdr : lay.checkHeader cfg.debug hrow (Int.ofNat cfg.skipRows) = some er) :
    fileCheck lay cfg fname (pre ++ hrow :: rest) = .ok (some (.fileE fname [er])) := by
  have hloop : rowsLoop lay cfg (pre ++ hrow :: rest) 0 [] (columnCacheInit lay) =
      .ok ([er], columnCacheInit lay) := by
    rw [rowsLoop_skip lay cfg pre (hrow :: rest) 0 [] _ (by omega),
      Nat.zero_add, hpre, rowsLoop, if_neg (by omega)]
    have hc : ((cfg.skipRows == cfg.skipRows) && !lay.noHeader) = true := by
      simp [hnh]
    rw [hc, hhdr]
    simp [hc]
  unfold fileCheck
  rw [hfr]
  simp only [Bool.not_true, Bool.false_eq_true, if_false]
  rw [hloop]
  simp [columnFinalize_empty lay _ (columnCacheInit_empty lay)]

def c3Layout : Layout := { fields := [("a", Field.base false [])] }

/-- Witness for C3: a one-field layout whose header is wrong; the rows after
the header never affect the result. -/
theorem claim_C3_witness :
    Layout.checkHeader false c3Layout ["b"] (Int.ofNat 0) =
      some (.rowE (-1)
        [.fail .columnOrder "Header row must explicitly match order of definition",
         .fail .noExtra "Header row must not have unexpected columns",
         .fail .noMissing "Header row must not be missing any expected columns"]) ∧
    fileCheck c3Layout {} "f" ([] ++ ["b"] :: [["z"], ["w"]]) =
      .ok (some (.fileE "f" [.rowE (-1)
        [.fail .columnOrder "Header row must explicitly match order of definition",
         .fail .noExtra "Header row must not have unexpected columns",
         .fail .noMissing "Header row must not be missing any expected columns"]])) :=
  ⟨rfl,
   claim_C3_header_failure_terminal c3Layout {} "f" [] [["z"], ["w"]] ["b"] _
     rfl rfl rfl rfl⟩

/-! C2. -/

theorem cacheAppendRow_keys (lay : Layout) (row : List String) :
    ∀ (cache cache2 : List (String × List String)),
      cacheAppendRow lay row cache = .ok cache2 →
      cache2.map Prod.fst = cache.map Prod.fst
  | [], cache2, h => by
      cases h
      rfl
  | (k, vs) :: rest, cache2, h => by
      rw [cacheAppendRow] at h
      rcases hg : row.get? (layKeyIdx lay k) with _ | v <;> simp only [hg] at h
      · cases h
      · rcases hr : cacheAppendRow lay row rest with pe | rest2 <;> simp only [hr] at h
        · cases h
        · cases h
          simp [cacheAppendRow_keys lay row rest rest2 hr]

theorem cacheAppendRow_lookup (lay : Layout) (row : List String) :
    ∀ (cache cache2 : List (String × List String)) (k : String),
      cacheAppendRow lay row cache = .ok cache2 →
      pyLookup k cache2 =
        (pyLookup k cache).bind (fun vs =>
          (row.get? (layKeyIdx lay k)).map (fun v => vs ++ [v]))
  | [], cache2, k, h => by
      cases h
      rfl
  | (k0, vs0) :: rest, cache2, k, h => by
      rw [cacheAppendRow] at h
      rcases hg : row.get? (layKeyIdx lay k0) with _ | v <;> simp only [hg] at h
      · cases h
      · rcases hr : cacheAppendRow lay row rest with pe | rest2 <;> simp only [hr] at h
        · cases h
        · cases h
          rw [pyLookup, pyLookup]
          rcases hk : k0 == k
          · simp only [Bool.false_eq_true, if_false]
            exact cacheAppendRow_lookup lay row rest rest2 k hr
          · simp only [if_true]
            rw [beq_iff_eq] at hk
            subst hk
            rw [hg]
            rfl

theorem rowsLoop_cache_keys (lay : Layout) (cfg : FileCfg) :
    ∀ (rows : List (List String)) (rix : Nat) (e : List Err)
      (cache : List (String × List String)) (out : List Err × List (String × List String)),
      rowsLoop lay cfg rows rix e cache = .ok out →
      out.2.map Prod.fst = cache.map Prod.fst
  | [], rix, e, cache, out, h => by
      cases h
      rfl
  | row :: rest, rix, e, cache, out, h => by
      rw [rowsLoop] at h
      by_cases hskip : rix < cfg.skipRows
      · rw [if_pos hskip] at h
        exact rowsLoop_cache_keys lay cfg rest (rix + 1) e cache out h
      · rw [if_neg hskip] at h
        have hcache2 : ∀ cache2 : List (String × List String),
            (if decide (cfg.skipRows < rix) || lay.noHeader
              then cacheAppendRow lay row cache else .ok cache) = .ok cache2 →
            cache2.map Prod.fst = cache.map Prod.fst := by
          intro cache2 hca
          rcases hcond : (decide (cfg.skipRows < rix) || lay.noHeader) <;>
            rw [hcond] at hca
          · cases hca
            rfl
          · exact cacheAppendRow_keys lay row cache cache2 hca
        rcases hchk : (if rix == cfg.skipRows && !lay.noHeader
            then Except.ok (lay.checkHeader cfg.debug row (Int.ofNat rix))
            else lay.checkRow cfg.debug row (Int.ofNat rix)) with pe | (_ | er) <;>
          simp only [hchk] at h
        · cases h
        · rcases hca : (if decide (cfg.skipRows < rix) || lay.noHeader
              then cacheAppendRow lay row cache else .ok cache) with pe | cache2 <;>
            simp only [hca] at h
          · cases h
          · rw [rowsLoop_cache_keys lay cfg rest (rix + 1) e cache2 out h,
              hcache2 cache2 hca]
        · by_cases hhd : (rix == cfg.skipRows && !lay.noHeader) = true
          · rw [if_pos hhd] at h
            cases h
            rfl
          · rw [if_neg hhd] at h
            by_cases hmax : (((e ++ [er]).length : Int) > cfg.maxErrors)
            · rw [if_pos hmax] at h
              cases h
              rfl
            · rw [if_neg hmax] at h
              rcases hca : (if decide (cfg.skipRows < rix) || lay.noHeader
                  then cacheAppendRow lay row cache else .ok cache) with pe | cache2 <;>
                simp only [hca] at h
              · cases h
              · rw [rowsLoop_cache_keys lay cfg rest (rix + 1) (e ++ [er]) cache2 out h,
                  hcache2 cache2 hca]

/-- C2: the column cache holds an entry for exactly the layout fields that
carry a Column-scoped rule: the initial cache is keyed by exactly those
fields, the per-row append extends each cached field's entry with exactly that
field's value from the row and creates no entry for any other field, and the
entry set is preserved throughout the row loop. -/
theorem claim_C2_column_cache_discipline (lay : Layout) (cfg : FileCfg) :
    ((columnCacheInit lay).map Prod.fst =
      (lay.fields.filter (fun kv => kv.2.hasColRule)).map Prod.fst) ∧
    (∀ (row : List String) (cache cache2 : List (String × List String)),
      cacheAppendRow lay row cache = .ok cache2 →
      cache2.map Prod.fst = cache.map Prod.fst ∧
      ∀ k : String, pyLookup k cache2 =
        (pyLookup k cache).bind (fun vs =>
          (row.get? (layKeyIdx lay k)).map (fun v => vs ++ [v]))) ∧
    (∀ (rows : List (List String)) (out : List Err × List (String × List String)),
      rowsLoop lay cfg rows 0 [] (columnCacheInit lay) = .ok out →
      out.2.map Prod.fst =
        (lay.fields.filter (fun kv => kv.2.hasColRule)).map Prod.fst) := by
  have h1 : (columnCacheInit lay).map Prod.fst =
      (lay.fields.filter (fun kv => kv.2.hasColRule)).map Prod.fst := by
    simp [columnCacheInit]
  refine ⟨h1, ?_, ?_⟩
  · intro row cache cache2 hca
    exact ⟨cacheAppendRow_keys lay row cache cache2 hca,
      fun k => cacheAppendRow_lookup lay row cache cache2 k hca⟩
  · intro rows out h
    rw [rowsLoop_cache_keys lay cfg rows 0 [] _ out h, h1]

def c2Layout : Layout :=
  { fields := [("a", Field.base false []), ("b", Field.base false [.col .unique])] }

/-- Witness for C2 at a two-field layout whose second field carries the
Unique column rule. -/
theorem claim_C2_witness :
    cacheAppendRow c2Layout ["1", "2"] [("b", [])] = .ok [("b", ["2"])] ∧
    (([("b", ["2"])] : List (String × List String)).map Prod.fst =
        ([("b", ([] : List String))]).map Prod.fst ∧
      ∀ k : String, pyLookup k [("b", ["2"])] =
        (pyLookup k [("b", ([] : List String))]).bind (fun vs =>
          ((["1", "2"] : List String).get? (layKeyIdx c2Layout k)).map (fun v => vs ++ [v]))) ∧
    rowsLoop c2Layout {} [["a", "b"], ["1", "2"]] 0 [] (columnCacheInit c2Layout) =
      .ok ([], [("b", ["2"])]) ∧
    ([("b", ["2"])] : List (String × List String)).map Prod.fst =
      (c2Layout.fields.filter (fun kv => kv.2.hasColRule)).map Prod.fst :=
  ⟨rfl,
   (claim_C2_column_cache_discipline c2Layout {}).2.1 ["1", "2"] [("b", [])] [("b", ["2"])] rfl,
   rfl,
   (claim_C2_column_cache_discipline c2Layout {}).2.2 [["a", "b"], ["1", "2"]]
     ([], [("b", ["2"])]) rfl⟩

end Rumydata
